import Mathlib

/-!
# Verification of the react19-nexus event bus and optimistic overlay

This file embeds the core logic of the repository in Lean 4:

* `EventBus` (src/src/shared/utils/eventBus.ts): a publish/subscribe
  registry.  The bus state maps every event name to the list of callback
  identifiers registered under it (registration order = list order, `on`
  pushes at the end).  In the source, `off` *replaces* the stored array with
  a filtered copy and `emit` runs `Array.prototype.forEach` over the array
  it read at entry, so an `emit` call always iterates the subscriber list
  as it was when `emit` started; mutations performed by callbacks are
  visible only to nested bus operations.  The embedding therefore lets
  `emit` fold over the snapshot `s.events e` while threading the mutable
  bus state through each callback invocation.

* Callback behaviour is deep-embedded: a callback identifier is a `Nat`
  (reference equality of JS function objects becomes `Nat` equality), and
  an environment maps each identifier to the list of bus actions its body
  performs when invoked — subscribing, unsubscribing, throwing, directly
  calling another callback (as the `once` wrapper does), or re-entrantly
  publishing.  A fuel parameter bounds the recursion caused by re-entrant
  `emit`; only nested invocations consume fuel, so theorems about
  non-re-entrant callbacks need just `1 ≤ fuel`.

* The optimistic overlay reducers of `TodoListEnhanced.tsx` and
  `TaskList.tsx`, and the `useActionState` action of `TaskInput.tsx`.
-/

/-- The event-bus state.  `events` is the `private events: EventMap = {}`
field (absent key ≡ empty list: the source deletes a key exactly when its
array becomes empty, and `emit` treats a missing key like an empty
iteration).  `log` records every callback invocation `(callback, data)` in
the order the invocations happen; it is the observation channel of the
model, not part of the source state. -/
@[ext]
structure BusState (α : Type) where
  events : String → List Nat
  log : List (Nat × α)

/-- The bus with no subscriptions and an empty invocation log. -/
def emptyBus (α : Type) : BusState α :=
  { events := fun _ => [], log := [] }

namespace EventBus

/-- Method `on(event, callback)` of eventBus.ts lines 15–23: create the array if
missing, then `push(callback)` (append at the end).  The returned
unsubscribe handle is `() => this.off(event, callback)`, i.e. exactly
`off` below. -/
def «on» {α : Type} (s : BusState α) (e : String) (c : Nat) : BusState α :=
  { s with events := fun x => if x = e then s.events e ++ [c] else s.events x }

/-- Method `off(event, callback)` of eventBus.ts lines 28–36:
`this.events[event] = this.events[event].filter((cb) => cb !== callback)`,
deleting the key when the result is empty (invisible in this
representation, where a missing key and an empty list coincide). -/
def off {α : Type} (s : BusState α) (e : String) (c : Nat) : BusState α :=
  { s with events := fun x => if x = e then (s.events e).filter (fun cb => cb != c) else s.events x }

/-- Method `clear()` of eventBus.ts lines 68–70: `this.events = {}`. -/
def clear {α : Type} (s : BusState α) : BusState α :=
  { s with events := fun _ => [] }

end EventBus

/-- One primitive action a callback body can perform on the bus when it is
invoked.  `sub`/`unsub` are `bus.on`/`bus.off`, `throwErr` raises an
exception (aborting the rest of the body), `call c` invokes callback `c`
directly as a plain function call, passing along the data the current
callback received (this is what the `once` wrapper does), and `pub e d`
re-entrantly calls `bus.emit(e, d)`. -/
inductive Act (α : Type) where
  | sub (e : String) (c : Nat)
  | unsub (e : String) (c : Nat)
  | throwErr
  | call (c : Nat)
  | pub (e : String) (d : α)
deriving DecidableEq

/-- The iteration loop of `emit` (eventBus.ts lines 44–50): invoke each callback of
the snapshot in order; the `try { … } catch` means a throwing callback
does not stop the iteration, so the thrown-flag of `invokeF` is
discarded. -/
def emitList {α : Type} (invokeF : Nat → α → BusState α → BusState α × Bool)
    (d : α) : List Nat → BusState α → BusState α
  | [], s => s
  | c :: rest, s => emitList invokeF d rest (invokeF c d s).1

/-- Run a callback body: execute its actions in order, threading the bus
state; `throwErr` aborts the body and reports the exception to the caller
(second component `true`).  A directly `call`ed callback that throws also
aborts the body (a plain JS call propagates the exception), while a
re-entrant `pub` never throws (emit catches subscriber exceptions). -/
def execActs {α : Type} (invokeF : Nat → α → BusState α → BusState α × Bool)
    (emitF : String → α → BusState α → BusState α) (d : α) :
    List (Act α) → BusState α → BusState α × Bool
  | [], s => (s, false)
  | Act.sub e c :: rest, s => execActs invokeF emitF d rest (EventBus.«on» s e c)
  | Act.unsub e c :: rest, s => execActs invokeF emitF d rest (EventBus.off s e c)
  | Act.throwErr :: _, s => (s, true)
  | Act.call c :: rest, s =>
      let r := invokeF c d s
      if r.2 then (r.1, true) else execActs invokeF emitF d rest r.1
  | Act.pub e d2 :: rest, s => execActs invokeF emitF d rest (emitF e d2 s)

/-- Invoke callback `c` with data `d`: record the invocation in the log,
then run the body of the callback.  Fuel bounds the depth of nested
invocations (each nested `call` or re-entrant `emit` runs with one unit
less); with fuel `0` the invocation is a no-op. -/
def invokeFuel {α : Type} (env : Nat → List (Act α)) :
    Nat → Nat → α → BusState α → BusState α × Bool
  | 0, _, _, s => (s, false)
  | fuel + 1, c, d, s =>
      execActs (invokeFuel env fuel)
        (fun e d2 s2 => emitList (invokeFuel env fuel) d2 (s2.events e) s2)
        d (env c) { s with log := s.log ++ [(c, d)] }

namespace EventBus

/-- Method `emit(event, data)` of eventBus.ts lines 41–51: if no callbacks are
registered, return; otherwise iterate the subscriber array read at entry
(`off` replaces the stored array, so the iterated array is the snapshot
at emit time), invoking each callback under `try`/`catch`.  `emit`
returns a plain `BusState`: by construction no exception reaches its
caller. -/
def emit {α : Type} (env : Nat → List (Act α)) (fuel : Nat) (e : String) (d : α)
    (s : BusState α) : BusState α :=
  emitList (invokeFuel env fuel) d (s.events e) s

/-- Body of the wrapper created by `once(event, callback)` (eventBus.ts
lines 56–63): `(data) => { callback(data); this.off(event, onceCallback) }`
— first call the wrapped callback with the received data, then
unsubscribe the wrapper itself (`w` is the identifier of the wrapper itself). -/
def onceBody (α : Type) (e : String) (c w : Nat) : List (Act α) :=
  [Act.call c, Act.unsub e w]

/-- Method `once(event, callback)` registers the fresh wrapper `w` via `on`; the
environment is expected to map `w` to `onceBody α e c w`. -/
def once {α : Type} (s : BusState α) (e : String) (w : Nat) : BusState α :=
  EventBus.«on» s e w

end EventBus

/-- Whether an action re-enters the bus invocation machinery (a direct
call of another callback or a re-entrant publish). -/
def Act.isReentrant {α : Type} : Act α → Bool
  | Act.call _ => true
  | Act.pub _ _ => true
  | _ => false

/-- A callback body is non-re-entrant when it performs no direct call and
no re-entrant publish (it may subscribe, unsubscribe and throw). -/
def NonReentrant {α : Type} (acts : List (Act α)) : Prop :=
  ∀ a ∈ acts, a.isReentrant = false

/-! ## Optimistic overlay (TodoListEnhanced.tsx and TaskList.tsx) -/

/-- Structure `Todo` from src/src/types/todo.ts. -/
structure Todo where
  id : String
  text : String
  completed : Bool
  createdAt : Nat
deriving DecidableEq, Repr

/-- Type `OptimisticAction` from TodoListEnhanced.tsx lines 8–11. -/
inductive OptimisticAction where
  | add (todo : Todo)
  | toggle (id : String)
  | remove (id : String)
deriving DecidableEq, Repr

/-- The `useOptimistic` reducer of TodoListEnhanced.tsx lines 21–34:
`add` prepends `action.todo`; `toggle` maps over the list flipping
`completed` of the todo whose id matches; `remove` filters the todo with
the matching id out. -/
def todoReducer (state : List Todo) : OptimisticAction → List Todo
  | OptimisticAction.add todo => todo :: state
  | OptimisticAction.toggle i =>
      state.map fun todo => if todo.id = i then { todo with completed := !todo.completed } else todo
  | OptimisticAction.remove i =>
      state.filter fun todo => todo.id != i

/-- The `apply(confirmedList, pendingActions)` of the spec: the React
`useOptimistic` recomputes the apparent list by replaying the source
reducer over the queue of still-pending actions, starting from the
confirmed list.  The reducer is from the source; the left fold is the
framework replay order (oldest pending action first). -/
def applyOverlay (confirmed : List Todo) (pending : List OptimisticAction) : List Todo :=
  pending.foldl todoReducer confirmed

/-- The commit step of `handleAddTodo` (TodoListEnhanced.tsx line 51):
`setTodos((prev) => [newTodo, ...prev])` — prepend the confirmed todo to
the authoritative list. -/
def commitAdd (confirmed : List Todo) (newTodo : Todo) : List Todo :=
  newTodo :: confirmed

/-- The JavaScript builtin `String.prototype.trim()`: strip leading and trailing
whitespace. -/
def jsTrim (s : String) : String :=
  String.mk (((s.data.dropWhile Char.isWhitespace).reverse.dropWhile Char.isWhitespace).reverse)

namespace TasksFeature

/-- The priority union type (low, medium, high) from
src/src/features/tasks/types/index.ts. -/
inductive Priority where
  | low
  | medium
  | high
deriving DecidableEq, Repr

/-- Structure `Task` from src/src/features/tasks/types/index.ts (`description?` is
optional). -/
structure Task where
  id : String
  title : String
  description : Option String
  completed : Bool
  priority : Priority
  createdAt : Nat
  updatedAt : Nat
deriving DecidableEq, Repr

/-- The action type of the TaskList.tsx reducer (line 20):
an object with a `type` field (toggle or delete), an optional `task`
field and an optional `id` field. -/
inductive TaskActionType where
  | toggle
  | delete
deriving DecidableEq, Repr

structure TaskAction where
  type : TaskActionType
  task : Option Task
  id : Option String
deriving DecidableEq, Repr

/-- The `useOptimistic` reducer of TaskList.tsx lines 20–31: `toggle`
flips `completed` of the task whose id equals `action.task?.id` (if
`action.task` is absent, `t.id === undefined` is false for every task, so
nothing flips); `delete` keeps the tasks whose id differs from
`action.id` (comparing the string id with the optional `action.id`). -/
def taskReducer (state : List Task) (action : TaskAction) : List Task :=
  match action.type with
  | TaskActionType.toggle =>
      state.map fun t =>
        if some t.id = action.task.map Task.id then { t with completed := !t.completed } else t
  | TaskActionType.delete =>
      state.filter fun t => some t.id != action.id

/-- The `apply` of the spec for the TaskList overlay: replay the TaskList.tsx
reducer over the pending-action queue. -/
def applyTaskOverlay (confirmed : List Task) (pending : List TaskAction) : List Task :=
  pending.foldl taskReducer confirmed

/-! ## TaskInput form action (TaskInput.tsx) -/

/-- Structure `FormState` from TaskInput.tsx lines 14–17 (`error?: string;
success?: boolean`). -/
structure FormState where
  error : Option String
  success : Option Bool
deriving DecidableEq, Repr

/-- Observable outcome of one submission: the returned form state,
whether `createAction` was invoked, and the tasks passed to
`onTaskCreated`. -/
structure SubmitResult where
  state : FormState
  createCalled : Bool
  notified : List Task
deriving DecidableEq, Repr

/-- The `useActionState` action of TaskInput.tsx lines 21–35: read the
title, and if `title.trim()` is empty return
the state carrying the error message "Task title is required" without
invoking `createAction`;
otherwise await `createAction(title.trim())`, on success notify
`onTaskCreated(task)` and return `{ success: true }`, on rejection return
the state carrying "Failed to create task".  The awaited `createAction` is the
caller-supplied operation, modelled as a function returning `some task`
or `none` (rejection). -/
def taskInputAction (create : String → Option Task) (title : String) : SubmitResult :=
  if jsTrim title = "" then
    { state := { error := some "Task title is required", success := none },
      createCalled := false, notified := [] }
  else
    match create (jsTrim title) with
    | some task =>
        { state := { error := none, success := some true },
          createCalled := true, notified := [task] }
    | none =>
        { state := { error := some "Failed to create task", success := none },
          createCalled := true, notified := [] }

end TasksFeature

/-! ## Helper lemmas: the invocation log of a publish call -/

/-- Operations `on` and `off` never touch the invocation log, so a non-re-entrant
callback body leaves the log exactly as it found it (whether or not it
throws). -/
theorem execActs_log_of_nonReentrant {α : Type}
    (invokeF : Nat → α → BusState α → BusState α × Bool)
    (emitF : String → α → BusState α → BusState α) (d : α) :
    ∀ (acts : List (Act α)) (s : BusState α), NonReentrant acts →
      ((execActs invokeF emitF d acts s).1).log = s.log := by
  intro acts
  induction acts with
  | nil => intro s _; rfl
  | cons a rest ih =>
    intro s h
    have hrest : NonReentrant rest := fun x hx => h x (List.mem_cons_of_mem a hx)
    cases a with
    | sub e c => simpa [execActs] using ih (EventBus.«on» s e c) hrest
    | unsub e c => simpa [execActs] using ih (EventBus.off s e c) hrest
    | throwErr => rfl
    | call c => exact absurd (h (Act.call c) (List.mem_cons_self _ _)) (by simp [Act.isReentrant])
    | pub e d2 => exact absurd (h (Act.pub e d2) (List.mem_cons_self _ _)) (by simp [Act.isReentrant])

/-- Invoking a non-re-entrant callback with positive fuel appends exactly
its own invocation record to the log. -/
theorem invokeFuel_log_of_nonReentrant {α : Type} (env : Nat → List (Act α))
    (fuel : Nat) (c : Nat) (d : α) (s : BusState α) (h : NonReentrant (env c)) :
    ((invokeFuel env (fuel + 1) c d s).1).log = s.log ++ [(c, d)] := by
  rw [invokeFuel]
  exact execActs_log_of_nonReentrant _ _ _ (env c) _ h

/-- Iterating `emit` over a snapshot of non-re-entrant callbacks appends
one invocation record per callback, in snapshot order, each carrying the
published data unchanged. -/
theorem emitList_log_of_nonReentrant {α : Type} (env : Nat → List (Act α))
    (fuel : Nat) (d : α) :
    ∀ (l : List Nat) (s : BusState α), (∀ c ∈ l, NonReentrant (env c)) →
      (emitList (invokeFuel env (fuel + 1)) d l s).log
        = s.log ++ l.map (fun c => (c, d)) := by
  intro l
  induction l with
  | nil => intro s _; simp [emitList]
  | cons c rest ih =>
    intro s h
    rw [emitList]
    rw [ih _ (fun x hx => h x (List.mem_cons_of_mem c hx))]
    rw [invokeFuel_log_of_nonReentrant env fuel c d s (h c (List.mem_cons_self _ _))]
    simp

instance {α : Type} (acts : List (Act α)) : Decidable (NonReentrant acts) :=
  inferInstanceAs (Decidable (∀ a ∈ acts, a.isReentrant = false))

/-- The log characterization of one publish call over non-re-entrant
callbacks (shared helper): the log grows by exactly one record per
callback of the snapshot, in snapshot order, carrying the published
data. -/
theorem emit_log_eq {α : Type} (env : Nat → List (Act α))
    (fuel : Nat) (e : String) (d : α) (s : BusState α)
    (hcb : ∀ c ∈ s.events e, NonReentrant (env c)) (hfuel : 1 ≤ fuel) :
    (EventBus.emit env fuel e d s).log = s.log ++ (s.events e).map (fun c => (c, d)) := by
  obtain ⟨f, rfl⟩ : ∃ f, fuel = f + 1 := ⟨fuel - 1, by omega⟩
  exact emitList_log_of_nonReentrant env f d (s.events e) s hcb

/-- C1: `publish(e, d)` invokes each callback registered for `e` at call
time exactly once, synchronously, in registration order, passing `d`
unchanged: the invocation log grows by exactly one record `(c, d)` per
registered callback `c`, in list (= registration) order.  The callbacks
may throw (`Act.throwErr`) and may mutate the subscription table; a
throwing callback does not prevent the remaining ones from running, and
`emit` returns an ordinary state — it has no exception outcome, mirroring
the per-callback `try`/`catch` of the source. -/
theorem publish_invokes_each_once_in_order {α : Type} (env : Nat → List (Act α))
    (fuel : Nat) (e : String) (d : α) (s : BusState α)
    (hcb : ∀ c ∈ s.events e, NonReentrant (env c)) (hfuel : 1 ≤ fuel) :
    (EventBus.emit env fuel e d s).log = s.log ++ (s.events e).map (fun c => (c, d)) :=
  emit_log_eq env fuel e d s hcb hfuel

/-- Environment for the C1 witness: callback 0 throws, callback 1 does
nothing. -/
def envThrow : Nat → List (Act Nat) := fun c =>
  if c = 0 then [Act.throwErr] else []

/-- A bus with callbacks 0 and 1 registered for `task:created`, in that
order. -/
def busTwo : BusState Nat :=
  EventBus.«on» (EventBus.«on» (emptyBus Nat) "task:created" 0) "task:created" 1

/-- Witness for C1: with callback 0 throwing, both callbacks are still
invoked exactly once, in registration order, with the published value 7. -/
theorem publish_invokes_each_once_in_order_witness :
    (∀ c ∈ busTwo.events "task:created", NonReentrant (envThrow c))
    ∧ (EventBus.emit envThrow 1 "task:created" 7 busTwo).log
        = busTwo.log ++ (busTwo.events "task:created").map (fun c => (c, 7))
    ∧ (EventBus.emit envThrow 1 "task:created" 7 busTwo).log = [(0, 7), (1, 7)] :=
  ⟨by decide,
   publish_invokes_each_once_in_order envThrow 1 "task:created" 7 busTwo (by decide) (by decide),
   by decide⟩

/-- C4: if one of the invoked callbacks unsubscribes (itself or another
callback) during the iteration, the `publish` call still completes and
every subscriber present in the snapshot taken at publish time is invoked
exactly once — none skipped, none double-invoked.  (In the source, `off`
replaces the stored array, so the `forEach` of `emit` keeps iterating the
snapshot.) -/
theorem publish_completes_despite_unsubscribe {α : Type} [DecidableEq α]
    (env : Nat → List (Act α)) (fuel : Nat) (e e2 : String) (d : α) (s : BusState α)
    (u t : Nat) (hu : u ∈ s.events e) (hact : Act.unsub e2 t ∈ env u)
    (hcb : ∀ c ∈ s.events e, NonReentrant (env c)) (hfuel : 1 ≤ fuel) :
    (EventBus.emit env fuel e d s).log = s.log ++ (s.events e).map (fun c => (c, d))
    ∧ ∀ c : Nat, ((EventBus.emit env fuel e d s).log).count (c, d)
        = (s.log).count (c, d) + ((s.events e).count c) := by
  have hlog := emit_log_eq env fuel e d s hcb hfuel
  refine ⟨hlog, fun c => ?_⟩
  rw [hlog, List.count_append]
  congr 1
  induction s.events e with
  | nil => simp
  | cons a rest ih => simp [List.count_cons, ih]

/-- Environment for the C4 witness: callback 0 unsubscribes callback 1
for the same event mid-publish; callback 1 does nothing. -/
def envUnsub : Nat → List (Act Nat) := fun c =>
  if c = 0 then [Act.unsub "task:created" 1] else []

/-- Witness for C4: callback 0 unsubscribes callback 1 during the publish,
yet callback 1 is still invoked exactly once by that publish (snapshot
iteration), and afterwards callback 1 is gone from the subscriber list. -/
theorem publish_completes_despite_unsubscribe_witness :
    (0 ∈ busTwo.events "task:created")
    ∧ (Act.unsub "task:created" 1 ∈ envUnsub 0)
    ∧ (∀ c ∈ busTwo.events "task:created", NonReentrant (envUnsub c))
    ∧ ((EventBus.emit envUnsub 1 "task:created" 7 busTwo).log).count (1, 7)
        = (busTwo.log).count (1, 7) + ((busTwo.events "task:created").count 1)
    ∧ (EventBus.emit envUnsub 1 "task:created" 7 busTwo).log = [(0, 7), (1, 7)]
    ∧ (EventBus.emit envUnsub 1 "task:created" 7 busTwo).events "task:created" = [0] :=
  ⟨by decide, by decide, by decide,
   (publish_completes_despite_unsubscribe envUnsub 1 "task:created" "task:created" 7 busTwo
      0 1 (by decide) (by decide) (by decide) (by decide)).2 1,
   by decide, by decide⟩

/-! ## C2: `once` under a re-entrant publish (code bug) -/

/-- Environment for the `once` re-entrancy scenario: callback 0 is the
user callback, whose body re-entrantly publishes `task:created`; callback
1 is the wrapper that `once` registered for callback 0 (its body is
exactly the source wrapper: call 0, then unsubscribe itself). -/
def envOnce : Nat → List (Act Nat) := fun c =>
  if c = 0 then [Act.pub "task:created" 5]
  else if c = 1 then EventBus.onceBody Nat "task:created" 0 1
  else []

/-- The bus after calling `once` with event `task:created` and callback
0: the wrapper (id 1) is
registered. -/
def busOnce : BusState Nat := EventBus.once (emptyBus Nat) "task:created" 1

/-- C2 (code bug): the source removes the `once` wrapper only *after* the
wrapped callback returns, so when the callback re-entrantly publishes the
same event, the wrapper is still registered and the callback is invoked a
second time.  Concretely: publishing 7 once invokes callback 0 twice —
`(0, 7)` from the outer publish and `(0, 5)` from its own re-entrant
publish (in unbounded JS this recursion never terminates; here the fuel
cuts it off after depth 5, by which point the double invocation has
already happened). -/
theorem once_reentrant_publish_double_invokes :
    busOnce.events "task:created" = [1]
    ∧ envOnce 1 = EventBus.onceBody Nat "task:created" 0 1
    ∧ (EventBus.emit envOnce 5 "task:created" 7 busOnce).log
        = [(1, 7), (0, 7), (1, 5), (0, 5), (1, 5)]
    ∧ ((EventBus.emit envOnce 5 "task:created" 7 busOnce).log.map Prod.fst).count 0 = 2 := by
  refine ⟨by decide, by decide, by decide, by decide⟩

/-! ## C3: subscribing with the empty event name -/

/-- Counterexample to C3: calling `on` with the empty event name is
*not* a no-op registration —
the callback is registered under the empty-string key exactly like under
any other key. -/
theorem subscribe_empty_name_counterexample :
    (EventBus.«on» (emptyBus Nat) "" 7).events "" = [7]
    ∧ (EventBus.«on» (emptyBus Nat) "" 7).events "" ≠ [] := by
  refine ⟨by decide, by decide⟩

/-- C3 amended: `on` with the empty event name never throws (it is a
total function) and registers the callback under the empty-string event
name like any other event — the registration is real, not a no-op. -/
theorem subscribe_empty_name_registers {α : Type} (s : BusState α) (c : Nat) :
    (EventBus.«on» s "" c).events "" = s.events "" ++ [c]
    ∧ (EventBus.«on» s "" c).events "" ≠ [] := by
  constructor
  · simp [EventBus.«on»]
  · simp [EventBus.«on»]

/-! ## C5: unsubscribe idempotence -/

/-- C5: `off` is idempotent, never throws (total function), leaves the
invocation log and the subscribers of every other event untouched, and
removing a callback that is not registered leaves the whole state
unchanged. -/
theorem unsubscribe_idempotent {α : Type} (s : BusState α) (e e2 : String) (c : Nat) :
    EventBus.off (EventBus.off s e c) e c = EventBus.off s e c
    ∧ (e2 ≠ e → (EventBus.off s e c).events e2 = s.events e2)
    ∧ (EventBus.off s e c).log = s.log
    ∧ (c ∉ s.events e → EventBus.off s e c = s) := by
  refine ⟨?_, ?_, rfl, ?_⟩
  · apply BusState.ext
    · funext x
      by_cases hx : x = e
      · subst hx
        simp [EventBus.off, List.filter_filter]
      · simp [EventBus.off, hx]
    · rfl
  · intro h
    simp [EventBus.off, h]
  · intro h
    apply BusState.ext
    · funext x
      by_cases hx : x = e
      · subst hx
        simp only [EventBus.off, if_pos rfl]
        exact List.filter_eq_self.mpr fun a ha => by
          have : a ≠ c := fun heq => h (heq ▸ ha)
          simpa using this
      · simp [EventBus.off, hx]
    · rfl

/-- A bus with only callback 2 registered for event `a`. -/
def busSample : BusState Nat := EventBus.«on» (emptyBus Nat) "a" 2

/-- Witness for C5 at a concrete bus: double removal of the never-registered
callback 1 changes nothing; the subscribers of event `b` are untouched. -/
theorem unsubscribe_idempotent_witness :
    (EventBus.off (EventBus.off busSample "a" 1) "a" 1 = EventBus.off busSample "a" 1)
    ∧ ("b" ≠ "a")
    ∧ ((EventBus.off busSample "a" 1).events "b" = busSample.events "b")
    ∧ (1 ∉ busSample.events "a")
    ∧ (EventBus.off busSample "a" 1 = busSample) :=
  ⟨(unsubscribe_idempotent busSample "a" "b" 1).1,
   by decide,
   (unsubscribe_idempotent busSample "a" "b" 1).2.1 (by decide),
   by decide,
   (unsubscribe_idempotent busSample "a" "b" 1).2.2.2 (by decide)⟩

/-! ## C10: one unsubscribe removes every occurrence of the callback -/

/-- C10: when the same callback is registered several times under one
event, a single `off` call (equivalently, invoking one unsubscribe handle
returned by `on`) removes *every* occurrence — `off` filters the whole
list — so a subsequent publish invokes that callback zero times: the new
log records no `(c, d)` invocation beyond those already in the log. -/
theorem unsubscribe_removes_all_occurrences {α : Type} [DecidableEq α]
    (env : Nat → List (Act α)) (fuel : Nat) (s : BusState α) (e : String) (c : Nat) (d : α)
    (hcb : ∀ x ∈ (EventBus.off s e c).events e, NonReentrant (env x)) (hfuel : 1 ≤ fuel) :
    (EventBus.off s e c).events e = (s.events e).filter (fun cb => cb != c)
    ∧ (c ∉ (EventBus.off s e c).events e)
    ∧ ((EventBus.emit env fuel e d (EventBus.off s e c)).log).count (c, d)
        = (s.log).count (c, d) := by
  have hev : (EventBus.off s e c).events e = (s.events e).filter (fun cb => cb != c) := by
    simp [EventBus.off]
  have hmem : c ∉ (EventBus.off s e c).events e := by
    rw [hev]
    intro hc
    have := List.of_mem_filter hc
    simp at this
  refine ⟨hev, hmem, ?_⟩
  have hlog := emit_log_eq env fuel e d (EventBus.off s e c) hcb hfuel
  rw [hlog, List.count_append]
  have hnolog : (((EventBus.off s e c).events e).map (fun x => (x, d))).count (c, d) = 0 := by
    have : ∀ l : List Nat, c ∉ l → ((l.map (fun x => (x, d))).count (c, d) = 0) := by
      intro l
      induction l with
      | nil => intro _; simp
      | cons a rest ih =>
        intro h
        have ha : a ≠ c := fun heq => h (by simp [heq])
        simp [List.count_cons, ih (fun hr => h (List.mem_cons_of_mem a hr)), ha]
    exact this _ hmem
  rw [hnolog]
  rfl

/-- A bus with callback 5 registered twice (and callback 6 once) for
event `task:updated`. -/
def busDup : BusState Nat :=
  EventBus.«on» (EventBus.«on» (EventBus.«on» (emptyBus Nat) "task:updated" 5)
    "task:updated" 6) "task:updated" 5

/-- Witness for C10: both occurrences of callback 5 disappear after one
`off`, and a publish after the removal never invokes callback 5. -/
theorem unsubscribe_removes_all_occurrences_witness :
    (busDup.events "task:updated" = [5, 6, 5])
    ∧ ((EventBus.off busDup "task:updated" 5).events "task:updated" = [6])
    ∧ (5 ∉ (EventBus.off busDup "task:updated" 5).events "task:updated")
    ∧ (((EventBus.emit (fun _ => ([] : List (Act Nat))) 1 "task:updated" 9
          (EventBus.off busDup "task:updated" 5)).log).count (5, 9)
        = ((busDup.log).count (5, 9))) :=
  ⟨by decide, by decide,
   (unsubscribe_removes_all_occurrences (fun _ => ([] : List (Act Nat))) 1 busDup
      "task:updated" 5 9 (by decide) (by decide)).2.1,
   (unsubscribe_removes_all_occurrences (fun _ => ([] : List (Act Nat))) 1 busDup
      "task:updated" 5 9 (by decide) (by decide)).2.2⟩

/-! ## C6: overlay purity / determinism -/

/-- C6: `apply` is a pure function of its arguments — on structurally
identical inputs both overlay reducers (the TodoListEnhanced one and the
TaskList one) produce structurally identical outputs.  In the embedding
the reducers are functions over immutable values: the source branches
build new objects (`{ ...todo, completed: ... }`) and new arrays
(`map`/`filter`/spread), never mutating the confirmed list or the
entries inside it. -/
theorem overlay_apply_pure (c1 c2 : List Todo) (p1 p2 : List OptimisticAction)
    (tc1 tc2 : List TasksFeature.Task) (tp1 tp2 : List TasksFeature.TaskAction)
    (hc : c1 = c2) (hp : p1 = p2) (htc : tc1 = tc2) (htp : tp1 = tp2) :
    applyOverlay c1 p1 = applyOverlay c2 p2
    ∧ TasksFeature.applyTaskOverlay tc1 tp1 = TasksFeature.applyTaskOverlay tc2 tp2 := by
  subst hc hp htc htp
  exact ⟨rfl, rfl⟩

/-- A sample todo used by the overlay witnesses. -/
def todoA : Todo := { id := "a", text := "alpha", completed := false, createdAt := 0 }

/-- A sample confirmed task used by the overlay witnesses. -/
def taskA : TasksFeature.Task :=
  { id := "a", title := "alpha", description := none, completed := false,
    priority := TasksFeature.Priority.medium, createdAt := 0, updatedAt := 0 }

/-- Witness for C6 at concrete inputs. -/
theorem overlay_apply_pure_witness :
    applyOverlay [todoA] [OptimisticAction.toggle "a"]
      = applyOverlay [todoA] [OptimisticAction.toggle "a"]
    ∧ TasksFeature.applyTaskOverlay [taskA]
        [{ type := TasksFeature.TaskActionType.delete, task := none, id := some "a" }]
      = TasksFeature.applyTaskOverlay [taskA]
        [{ type := TasksFeature.TaskActionType.delete, task := none, id := some "a" }] :=
  overlay_apply_pure [todoA] [todoA] [OptimisticAction.toggle "a"] [OptimisticAction.toggle "a"]
    [taskA] [taskA]
    [{ type := TasksFeature.TaskActionType.delete, task := none, id := some "a" }]
    [{ type := TasksFeature.TaskActionType.delete, task := none, id := some "a" }]
    rfl rfl rfl rfl

/-! ## C8: add-then-commit round trip -/

/-- The optimistic todo created by `handleAddTodo` for the round-trip
scenario (temporary client-side id, title `X`). -/
def tmpTodo : Todo := { id := "tmp-1", text := "X", completed := false, createdAt := 0 }

/-- The confirmed todo the asynchronous create resolves with. -/
def realTodo : Todo := { id := "real-1", text := "X", completed := false, createdAt := 0 }

/-- C8: starting from an empty confirmed list with one pending `add`
carrying the temporary entry, `apply` shows exactly that one entry
(id `tmp-1`, title `X`); committing the confirmed result (prepending it
to the confirmed list, as `setTodos((prev) => [newTodo, ...prev])` does)
and dropping the pending action leaves exactly one confirmed entry with
id `real-1`, and re-running `apply` with the now-empty pending queue
shows exactly that entry — no duplicate, no leftover temporary entry. -/
theorem add_commit_round_trip :
    applyOverlay [] [OptimisticAction.add tmpTodo] = [tmpTodo]
    ∧ tmpTodo.id = "tmp-1" ∧ tmpTodo.text = "X"
    ∧ commitAdd [] realTodo = [realTodo]
    ∧ realTodo.id = "real-1" ∧ realTodo.text = "X"
    ∧ applyOverlay (commitAdd [] realTodo) [] = [realTodo]
    ∧ (applyOverlay (commitAdd [] realTodo) []).map Todo.id = ["real-1"] := by
  refine ⟨by decide, by decide, by decide, by decide, by decide, by decide, by decide, by decide⟩

/-! ## C9: empty-title validation fails synchronously -/

/-- C9: for a submitted title that is empty or only whitespace
(`jsTrim title = ""`), the TaskInput action returns the validation error
synchronously: the form state carries the required-title error message,
`createAction` is never invoked, and `onTaskCreated` is never called —
so no optimistic or confirmed state change can occur, whatever the
supplied create operation is. -/
theorem empty_title_fails_validation (create : String → Option TasksFeature.Task)
    (title : String) (h : jsTrim title = "") :
    (TasksFeature.taskInputAction create title).state.error = some "Task title is required"
    ∧ (TasksFeature.taskInputAction create title).createCalled = false
    ∧ (TasksFeature.taskInputAction create title).notified = [] := by
  unfold TasksFeature.taskInputAction
  rw [if_pos h]
  exact ⟨rfl, rfl, rfl⟩

/-- Witness for C9: a whitespace-only title, with a create operation that
would succeed if it were ever called. -/
theorem empty_title_fails_validation_witness :
    jsTrim "   " = ""
    ∧ (TasksFeature.taskInputAction (fun _ => some taskA) "   ").state.error
        = some "Task title is required"
    ∧ (TasksFeature.taskInputAction (fun _ => some taskA) "   ").createCalled = false
    ∧ (TasksFeature.taskInputAction (fun _ => some taskA) "   ").notified = [] :=
  ⟨by decide,
   (empty_title_fails_validation (fun _ => some taskA) "   " (by decide)).1,
   (empty_title_fails_validation (fun _ => some taskA) "   " (by decide)).2.1,
   (empty_title_fails_validation (fun _ => some taskA) "   " (by decide)).2.2⟩

/-! ## C7: toggle/delete with an unmatched target id is a no-op -/

/-- The ids introduced by `add` actions in a pending queue (the only
actions that can put a new id into the apparent list). -/
def addIds (p : List OptimisticAction) : List String :=
  p.filterMap fun a => match a with
    | OptimisticAction.add t => some t.id
    | _ => none

theorem addIds_cons (a : OptimisticAction) (rest : List OptimisticAction) :
    addIds (a :: rest) = addIds [a] ++ addIds rest := by
  cases a <;> simp [addIds]

theorem addIds_append (p1 p2 : List OptimisticAction) :
    addIds (p1 ++ p2) = addIds p1 ++ addIds p2 := by
  simp [addIds, List.filterMap_append]

/-- Toggling an id that appears nowhere in the list leaves the list
unchanged (the `map` hits only the `else todo` branch). -/
theorem todoReducer_toggle_noop (l : List Todo) (z : String) (h : z ∉ l.map Todo.id) :
    todoReducer l (OptimisticAction.toggle z) = l := by
  induction l with
  | nil => rfl
  | cons t rest ih =>
    simp only [List.map_cons, List.mem_cons, not_or] at h
    have hrec := ih h.2
    simp only [todoReducer, List.map_cons] at hrec ⊢
    rw [if_neg fun he => h.1 he.symm, hrec]

/-- Removing an id that appears nowhere in the list keeps every entry. -/
theorem todoReducer_remove_noop (l : List Todo) (z : String) (h : z ∉ l.map Todo.id) :
    todoReducer l (OptimisticAction.remove z) = l := by
  simp only [todoReducer]
  refine List.filter_eq_self.mpr fun t ht => ?_
  have : t.id ≠ z := fun he => h (List.mem_map.mpr ⟨t, ht, he⟩)
  simpa using this

/-- A toggle never changes the multiset of ids in the apparent list. -/
theorem todoReducer_toggle_map_id (l : List Todo) (i : String) :
    (todoReducer l (OptimisticAction.toggle i)).map Todo.id = l.map Todo.id := by
  induction l with
  | nil => rfl
  | cons t rest ih =>
    simp only [todoReducer, List.map_cons] at ih ⊢
    by_cases ht : t.id = i <;> simp [ht, ih]

/-- An id absent from the list and not introduced by the action stays
absent after one reducer step. -/
theorem todoReducer_preserves_absent (l : List Todo) (a : OptimisticAction) (z : String)
    (hz : z ∉ l.map Todo.id) (ha : z ∉ addIds [a]) :
    z ∉ (todoReducer l a).map Todo.id := by
  cases a with
  | add t =>
    simp only [addIds, List.filterMap] at ha
    intro hmem
    simp only [todoReducer, List.map_cons, List.mem_cons] at hmem
    rcases hmem with he | hmem
    · exact ha (by simp [he])
    · exact hz hmem
  | toggle i => rw [todoReducer_toggle_map_id]; exact hz
  | remove i =>
    intro hmem
    obtain ⟨t, ht, hid⟩ := List.mem_map.mp hmem
    simp only [todoReducer, List.mem_filter] at ht
    exact hz (List.mem_map.mpr ⟨t, ht.1, hid⟩)

/-- An id absent from the confirmed list and not introduced by any
pending `add` is absent from the whole apparent list. -/
theorem applyOverlay_preserves_absent (p : List OptimisticAction) :
    ∀ (c : List Todo) (z : String), z ∉ c.map Todo.id → z ∉ addIds p →
      z ∉ (applyOverlay c p).map Todo.id := by
  induction p with
  | nil => intro c z hz _; exact hz
  | cons a rest ih =>
    intro c z hz hp
    rw [addIds_cons] at hp
    simp only [List.mem_append, not_or] at hp
    exact ih (todoReducer c a) z (todoReducer_preserves_absent c a z hz hp.1) hp.2

/-- A TaskList toggle whose `task?.id` matches no entry (including the
`task === undefined` case, where `t.id === undefined` is false for every
task) leaves the list unchanged. -/
theorem task_toggle_map_eq_self (l : List TasksFeature.Task) (t0 : TasksFeature.Task)
    (h : t0.id ∉ l.map TasksFeature.Task.id) :
    (l.map fun t => if some t.id = some t0.id
        then { t with completed := !t.completed } else t) = l := by
  induction l with
  | nil => rfl
  | cons t rest ih =>
    simp only [List.map_cons, List.mem_cons, not_or] at h
    rw [List.map_cons, if_neg fun he => h.1 (by simpa using he.symm), ih h.2]

theorem taskReducer_toggle_noop (l : List TasksFeature.Task)
    (ta : Option TasksFeature.Task) (oid : Option String)
    (h : ∀ t, ta = some t → t.id ∉ l.map TasksFeature.Task.id) :
    TasksFeature.taskReducer l
      { type := TasksFeature.TaskActionType.toggle, task := ta, id := oid } = l := by
  cases ta with
  | none =>
    show (l.map fun t => if some t.id = Option.map TasksFeature.Task.id none
        then { t with completed := !t.completed } else t) = l
    simp
  | some t0 =>
    exact task_toggle_map_eq_self l t0 (h t0 rfl)

/-- A TaskList delete whose target id matches no entry keeps every
entry. -/
theorem taskReducer_delete_noop (l : List TasksFeature.Task)
    (tb : Option TasksFeature.Task) (z : String)
    (h : z ∉ l.map TasksFeature.Task.id) :
    TasksFeature.taskReducer l
      { type := TasksFeature.TaskActionType.delete, task := tb, id := some z } = l := by
  simp only [TasksFeature.taskReducer]
  refine List.filter_eq_self.mpr fun t ht => ?_
  have : t.id ≠ z := fun he => h (List.mem_map.mpr ⟨t, ht, he⟩)
  simpa using this

/-- A TaskList toggle never changes the ids of the apparent list. -/
theorem taskReducer_toggle_map_id (l : List TasksFeature.Task)
    (ta : Option TasksFeature.Task) (oid : Option String) :
    (TasksFeature.taskReducer l
      { type := TasksFeature.TaskActionType.toggle, task := ta, id := oid }).map
        TasksFeature.Task.id = l.map TasksFeature.Task.id := by
  induction l with
  | nil => rfl
  | cons t rest ih =>
    simp only [TasksFeature.taskReducer, List.map_cons] at ih ⊢
    by_cases ht : some t.id = ta.map TasksFeature.Task.id <;> simp [ht, ih]

/-- The TaskList reducer never introduces a new id (there is no `add`
action): an absent id stays absent. -/
theorem taskReducer_preserves_absent (l : List TasksFeature.Task)
    (a : TasksFeature.TaskAction) (z : String)
    (hz : z ∉ l.map TasksFeature.Task.id) :
    z ∉ (TasksFeature.taskReducer l a).map TasksFeature.Task.id := by
  obtain ⟨ty, ta, oid⟩ := a
  cases ty with
  | toggle => rw [taskReducer_toggle_map_id]; exact hz
  | delete =>
    intro hmem
    obtain ⟨t, ht, hid⟩ := List.mem_map.mp hmem
    simp only [TasksFeature.taskReducer, List.mem_filter] at ht
    exact hz (List.mem_map.mpr ⟨t, ht.1, hid⟩)

/-- An id absent from the confirmed task list is absent from the whole
apparent task list. -/
theorem applyTaskOverlay_preserves_absent (p : List TasksFeature.TaskAction) :
    ∀ (c : List TasksFeature.Task) (z : String), z ∉ c.map TasksFeature.Task.id →
      z ∉ (TasksFeature.applyTaskOverlay c p).map TasksFeature.Task.id := by
  induction p with
  | nil => intro c z hz; exact hz
  | cons a rest ih =>
    intro c z hz
    exact ih (TasksFeature.taskReducer c a) z (taskReducer_preserves_absent c a z hz)

/-- C7: a pending `toggle` or `remove`/`delete` whose target id matches
no confirmed entry and no pending `add` is a no-op on the apparent list:
dropping the action from anywhere in the queue yields the structurally
identical result, nothing throws (all functions are total), and no
phantom entry with that id is created.  Stated for both overlays: the
TodoListEnhanced reducer (`toggle z` / `remove z` with `z` matching no
confirmed id and no pending add) and the TaskList reducer (`toggle` with
`task?.id` unmatched — including `task` absent — and `delete` with an
unmatched id). -/
theorem overlay_unmatched_target_noop
    (c : List Todo) (p1 p2 : List OptimisticAction) (z : String)
    (tc : List TasksFeature.Task) (tp1 tp2 : List TasksFeature.TaskAction)
    (ta tb : Option TasksFeature.Task) (oid : Option String) (zt : String)
    (hz : z ∉ c.map Todo.id) (hadd : z ∉ addIds (p1 ++ p2))
    (hta : ∀ t, ta = some t → t.id = zt)
    (hzt : zt ∉ tc.map TasksFeature.Task.id) :
    applyOverlay c (p1 ++ OptimisticAction.toggle z :: p2) = applyOverlay c (p1 ++ p2)
    ∧ applyOverlay c (p1 ++ OptimisticAction.remove z :: p2) = applyOverlay c (p1 ++ p2)
    ∧ z ∉ (applyOverlay c (p1 ++ OptimisticAction.toggle z :: p2)).map Todo.id
    ∧ TasksFeature.applyTaskOverlay tc
        (tp1 ++ { type := TasksFeature.TaskActionType.toggle, task := ta, id := oid } :: tp2)
      = TasksFeature.applyTaskOverlay tc (tp1 ++ tp2)
    ∧ TasksFeature.applyTaskOverlay tc
        (tp1 ++ { type := TasksFeature.TaskActionType.delete, task := tb, id := some zt } :: tp2)
      = TasksFeature.applyTaskOverlay tc (tp1 ++ tp2)
    ∧ zt ∉ (TasksFeature.applyTaskOverlay tc
        (tp1 ++ { type := TasksFeature.TaskActionType.toggle, task := ta, id := oid } :: tp2)).map
          TasksFeature.Task.id := by
  rw [addIds_append] at hadd
  simp only [List.mem_append, not_or] at hadd
  have hmid : z ∉ (applyOverlay c p1).map Todo.id :=
    applyOverlay_preserves_absent p1 c z hz hadd.1
  have hsplit : ∀ x : OptimisticAction, applyOverlay c (p1 ++ x :: p2)
      = applyOverlay (todoReducer (applyOverlay c p1) x) p2 := by
    intro x
    simp [applyOverlay, List.foldl_append]
  have htog : applyOverlay c (p1 ++ OptimisticAction.toggle z :: p2)
      = applyOverlay c (p1 ++ p2) := by
    rw [hsplit, todoReducer_toggle_noop _ _ hmid]
    simp [applyOverlay, List.foldl_append]
  have hrem : applyOverlay c (p1 ++ OptimisticAction.remove z :: p2)
      = applyOverlay c (p1 ++ p2) := by
    rw [hsplit, todoReducer_remove_noop _ _ hmid]
    simp [applyOverlay, List.foldl_append]
  have htogmem : z ∉ (applyOverlay c (p1 ++ OptimisticAction.toggle z :: p2)).map Todo.id := by
    rw [htog]
    refine applyOverlay_preserves_absent (p1 ++ p2) c z hz ?_
    rw [addIds_append]
    simp only [List.mem_append, not_or]
    exact hadd
  have hmidt : zt ∉ (TasksFeature.applyTaskOverlay tc tp1).map TasksFeature.Task.id :=
    applyTaskOverlay_preserves_absent tp1 tc zt hzt
  have hsplitt : ∀ x : TasksFeature.TaskAction, TasksFeature.applyTaskOverlay tc (tp1 ++ x :: tp2)
      = TasksFeature.applyTaskOverlay
          (TasksFeature.taskReducer (TasksFeature.applyTaskOverlay tc tp1) x) tp2 := by
    intro x
    simp [TasksFeature.applyTaskOverlay, List.foldl_append]
  have httog : TasksFeature.applyTaskOverlay tc
      (tp1 ++ { type := TasksFeature.TaskActionType.toggle, task := ta, id := oid } :: tp2)
      = TasksFeature.applyTaskOverlay tc (tp1 ++ tp2) := by
    rw [hsplitt, taskReducer_toggle_noop _ _ _ (fun t h2 => (hta t h2) ▸ hmidt)]
    simp [TasksFeature.applyTaskOverlay, List.foldl_append]
  have htdel : TasksFeature.applyTaskOverlay tc
      (tp1 ++ { type := TasksFeature.TaskActionType.delete, task := tb, id := some zt } :: tp2)
      = TasksFeature.applyTaskOverlay tc (tp1 ++ tp2) := by
    rw [hsplitt, taskReducer_delete_noop _ _ _ hmidt]
    simp [TasksFeature.applyTaskOverlay, List.foldl_append]
  have httogmem : zt ∉ (TasksFeature.applyTaskOverlay tc
      (tp1 ++ { type := TasksFeature.TaskActionType.toggle, task := ta, id := oid } :: tp2)).map
        TasksFeature.Task.id := by
    rw [httog]
    exact applyTaskOverlay_preserves_absent (tp1 ++ tp2) tc zt hzt
  exact ⟨htog, hrem, htogmem, httog, htdel, httogmem⟩

/-- A task whose id (`zz`) matches nothing in the sample confirmed task
list. -/
def taskZ : TasksFeature.Task :=
  { id := "zz", title := "ghost", description := none, completed := false,
    priority := TasksFeature.Priority.low, createdAt := 0, updatedAt := 0 }

/-- Witness for C7 at concrete inputs: toggling or deleting the
nonexistent id `zz` leaves both apparent lists untouched and creates no
entry `zz`. -/
theorem overlay_unmatched_target_noop_witness :
    ("zz" ∉ [todoA].map Todo.id)
    ∧ ("zz" ∉ addIds ([] ++ []))
    ∧ ("zz" ∉ [taskA].map TasksFeature.Task.id)
    ∧ applyOverlay [todoA] ([] ++ OptimisticAction.toggle "zz" :: [])
        = applyOverlay [todoA] ([] ++ [])
    ∧ applyOverlay [todoA] ([] ++ OptimisticAction.remove "zz" :: [])
        = applyOverlay [todoA] ([] ++ [])
    ∧ ("zz" ∉ (applyOverlay [todoA]
        ([] ++ OptimisticAction.toggle "zz" :: [])).map Todo.id)
    ∧ TasksFeature.applyTaskOverlay [taskA]
        ([] ++ { type := TasksFeature.TaskActionType.toggle, task := some taskZ,
                 id := (none : Option String) } :: [])
      = TasksFeature.applyTaskOverlay [taskA] ([] ++ [])
    ∧ TasksFeature.applyTaskOverlay [taskA]
        ([] ++ { type := TasksFeature.TaskActionType.delete,
                 task := (none : Option TasksFeature.Task), id := some "zz" } :: [])
      = TasksFeature.applyTaskOverlay [taskA] ([] ++ []) := by
  have h := overlay_unmatched_target_noop [todoA] [] [] "zz" [taskA] [] []
    (some taskZ) none none "zz"
    (by decide) (by decide)
    (fun t h2 => by injection h2 with h3; rw [← h3]; decide)
    (by decide)
  exact ⟨by decide, by decide, by decide, h.1, h.2.1, h.2.2.1, h.2.2.2.1, h.2.2.2.2.1⟩
